import Mathlib

/-!
Verification development for the mortgage-event delivery pipeline.

The two core components are embedded shallowly:

* the Ingestion Worker (src/services/worker/app.py): per-message processing,
  validation, partition-date computation, enrichment, raw/quarantine writes
  and acknowledgment;
* the Outbox Relay (src/services/publisher/main.py): one poll cycle over the
  outbox table, with SKIP LOCKED row claiming, per-row send outcomes, status
  updates and transactional commit.

External library calls (json.loads, datetime.fromisoformat) are abstracted as
function parameters; external service calls (S3 put, SQS send) are modelled by
boolean outcome oracles supplied by an environment.
-/

set_option autoImplicit false

namespace MortgageEvent

/-- JSON values, modelling the Python objects produced by `json.loads`.
Objects keep their insertion order, as Python dicts do. -/
inductive JValue where
  | null
  | bool (b : Bool)
  | num (n : Int)
  | str (s : String)
  | arr (elems : List JValue)
  | obj (fields : List (String × JValue))
deriving Repr

/-- Association-list lookup, modelling Python `d.get(key)`: first match wins. -/
def alookup {α : Type} : List (String × α) → String → Option α
  | [], _ => none
  | (k, v) :: rest, key => if k = key then some v else alookup rest key

/-- Python `d2 = dict(d); d2[key] = v`: replace the value of an existing key
in place, otherwise append the new pair at the end. -/
def setKey : List (String × JValue) → String → JValue → List (String × JValue)
  | [], key, v => [(key, v)]
  | (k, w) :: rest, key, v =>
      if k = key then (k, v) :: rest else (k, w) :: setKey rest key v

/-- A queue message as the worker receives it: body string, receipt handle and
message attributes (each attribute is a dict such as
DataType/StringValue pairs). -/
structure Msg where
  body : String
  receipt : String
  attrs : List (String × List (String × String))
deriving Repr

/-- src/services/worker/app.py, get_producer: `attrs.get("producer")`, and when
that is a dict, its `"StringValue"` entry. -/
def get_producer (attrs : List (String × List (String × String))) : Option String :=
  match alookup attrs "producer" with
  | some prod => alookup prod "StringValue"
  | none => none

/-- Outcome of the try-block validation in the worker loop: `json.loads` either
raises (a JSONDecodeError, a subclass of ValueError) or yields a value that
must be a dict with a non-empty string `payment_id`. -/
inductive ValResult where
  | valid (event : List (String × JValue)) (payment_id : String)
  | invalid (err : String)
deriving Repr

/-- src/services/worker/app.py lines 72-78: parse the body, require a dict,
require a non-empty string `payment_id`; each failure raises ValueError. -/
def validate (parsed : Option JValue) : ValResult :=
  match parsed with
  | none => .invalid "json decode error"
  | some (.obj fields) =>
      match alookup fields "payment_id" with
      | some (.str pid) =>
          if pid = "" then .invalid "missing/invalid payment_id"
          else .valid fields pid
      | _ => .invalid "missing/invalid payment_id"
  | some _ => .invalid "event is not an object"

/-- src/services/worker/app.py lines 27-28: a trailing Z is rewritten to
+00:00 before `datetime.fromisoformat` is called. `ts.endswith("Z")` is the
last character being Z, and `ts[:-1]` drops that last character; both are
modelled on the string's character list. -/
def fixZ (ts : String) : String :=
  if ts.data.getLast? == some 'Z' then String.mk ts.data.dropLast ++ "+00:00" else ts

/-- src/services/worker/app.py, parse_dt: prefer the UTC calendar date of the
event's `ts` field; on a missing, non-string or unparseable `ts` fall back to
the worker's current wall-clock date. `isoUtcDate` abstracts
`datetime.fromisoformat(·).astimezone(timezone.utc).strftime("%Y-%m-%d")`,
returning `none` when fromisoformat raises. -/
def parse_dt (isoUtcDate : String → Option String) (nowDate : String)
    (event : List (String × JValue)) : String :=
  match alookup event "ts" with
  | some (.str ts) =>
      match isoUtcDate (fixZ ts) with
      | some d => d
      | none => nowDate
  | _ => nowDate

/-- Clock readings the worker makes while handling one message:
`nowDate` is `time.strftime("%Y-%m-%d")`, `nowIso` is
`datetime.now(timezone.utc).isoformat()` with Z suffix, `unixSecs` is
`int(time.time())`. `rawPfx` and `quarPfx` are the configured key prefixes. -/
structure WorkerCtx where
  rawPfx : String
  quarPfx : String
  nowDate : String
  nowIso : String
  unixSecs : Nat
deriving Repr

/-- External-service behaviour for one message: whether the S3 put at a given
key succeeds (failure stands for a ClientError or any other exception raised
by `put_object`). -/
structure WorkerEnv where
  putOk : String → Bool

/-- Observable effects of handling one message: S3 puts from the raw-write
site (line 92) and the quarantine site (line 103), each with its success flag,
and the `delete_message` acknowledgment call. -/
inductive Action where
  | putRaw (key : String) (val : JValue) (ok : Bool)
  | putQuar (key : String) (val : JValue) (ok : Bool)
  | delMsg
deriving Repr

/-- The `_meta` object added by enrichment (lines 84-87); a missing producer
attribute becomes JSON null. -/
def metaVal (nowIso : String) (producer : Option String) : JValue :=
  .obj [("ingested_at", .str nowIso),
        ("producer", match producer with | some p => .str p | none => .null)]

/-- Message attributes rendered as the JSON document stored in quarantine. -/
def attrsToJson (attrs : List (String × List (String × String))) : JValue :=
  .obj (attrs.map (fun kv => (kv.1, .obj (kv.2.map (fun ab => (ab.1, JValue.str ab.2))))))

/-- The quarantine document (lines 103-108): error, original body, attributes
and receive timestamp. -/
def quarDoc (err : String) (body : String)
    (attrs : List (String × List (String × String))) (nowIso : String) : JValue :=
  .obj [("error", .str err), ("body", .str body),
        ("attributes", attrsToJson attrs), ("received_at", .str nowIso)]

/-- Raw object key (line 90). -/
def rawKey (pfx dt pid : String) : String :=
  pfx ++ "/payments/dt=" ++ dt ++ "/payment_id=" ++ pid ++ ".json"

/-- Quarantine object key (line 101). -/
def quarKey (pfx dt : String) (secs : Nat) : String :=
  pfx ++ "/dt=" ++ dt ++ "/" ++ toString secs ++ ".json"

/-- src/services/worker/app.py lines 65-125: handle one received message.
On the valid path: compute the partition date, enrich with `_meta`, put the
raw object, and delete the message only when that put succeeded (a failed put
raises ClientError or another exception, both of which skip the delete).
On a ValueError: put the quarantine document and delete the message only when
that put succeeded; a failed quarantine put leaves the message in place. -/
def processMessage (jsonParse : String → Option JValue)
    (isoUtcDate : String → Option String)
    (ctx : WorkerCtx) (env : WorkerEnv) (m : Msg) : List Action :=
  let producer := get_producer m.attrs
  match validate (jsonParse m.body) with
  | .valid event pid =>
      let dt := parse_dt isoUtcDate ctx.nowDate event
      let enriched := JValue.obj (setKey event "_meta" (metaVal ctx.nowIso producer))
      let key := rawKey ctx.rawPfx dt pid
      if env.putOk key then [.putRaw key enriched true, .delMsg]
      else [.putRaw key enriched false]
  | .invalid err =>
      let qkey := quarKey ctx.quarPfx ctx.nowDate ctx.unixSecs
      let qdoc := quarDoc err m.body m.attrs ctx.nowIso
      if env.putOk qkey then [.putQuar qkey qdoc true, .delMsg]
      else [.putQuar qkey qdoc false]

/-- Effect of one action on the object store: a successful put overwrites the
value at its key, everything else leaves the store unchanged. -/
def applyAction (store : String → Option JValue) : Action → String → Option JValue
  | .putRaw k v true, q => if q = k then some v else store q
  | .putQuar k v true, q => if q = k then some v else store q
  | .putRaw _ _ false, q => store q
  | .putQuar _ _ false, q => store q
  | .delMsg, q => store q

/-- Replay a trace of actions against the object store, in order. -/
def applyTrace (store : String → Option JValue) (tr : List Action) : String → Option JValue :=
  tr.foldl applyAction store

/-!
Outbox Relay (src/services/publisher/main.py), over the outbox_events table
declared in src/services/api/models.py. Times are integer epoch seconds;
Postgres `now()` is fixed per transaction, so one poll cycle uses a single
`now`.
-/

/-- One row of the `outbox_events` table (src/services/api/models.py).
`payload` stands for the serialized message body the relay would send. -/
structure OutboxRow where
  id : Nat
  payload : String
  status : String
  attempts : Nat
  available_at : Int
  created_at : Int
  published_at : Option Int
deriving Repr, DecidableEq

/-- Insert a row into a list sorted by `created_at` ascending. -/
def insertByCreated (r : OutboxRow) : List OutboxRow → List OutboxRow
  | [] => [r]
  | x :: xs =>
      if r.created_at < x.created_at then r :: x :: xs else x :: insertByCreated r xs

/-- Sort rows by `created_at` ascending (the SELECT's ORDER BY; ties are left
in an arbitrary order, as in SQL). -/
def sortByCreated : List OutboxRow → List OutboxRow
  | [] => []
  | x :: xs => insertByCreated x (sortByCreated xs)

/-- The poll SELECT (src/services/publisher/main.py lines 40-50): rows with
`status = 'pending'` and `available_at <= now`, skipping rows exclusively
locked by another in-flight cycle (FOR UPDATE SKIP LOCKED), ordered by
`created_at`, limited to 10. -/
def pollSelect (db : List OutboxRow) (locked : List Nat) (now : Int) : List OutboxRow :=
  (sortByCreated (db.filter
    (fun r => r.status == "pending" && decide (r.available_at ≤ now) && !(locked.contains r.id)))).take 10

/-- The backoff bound to the failure UPDATE's parameter: 5 seconds. -/
def BACKOFF : Int := 5

/-- The success UPDATE (lines 68-76) applied to one row: status becomes
published and published_at is set to the transaction's now. -/
def pubUpd (now : Int) (r : OutboxRow) : OutboxRow :=
  { r with status := "published", published_at := some now }

/-- The failure UPDATE (lines 79-87) applied to one row: attempts is
incremented and available_at advanced to now + backoff; status is untouched. -/
def failUpd (now : Int) (r : OutboxRow) : OutboxRow :=
  { r with attempts := r.attempts + 1, available_at := now + BACKOFF }

/-- `UPDATE outbox_events SET status='published', published_at=now() WHERE id=:id`. -/
def markPublished (now : Int) (eid : Nat) (db : List OutboxRow) : List OutboxRow :=
  db.map (fun r => if r.id = eid then pubUpd now r else r)

/-- `UPDATE outbox_events SET attempts=attempts+1, available_at=now()+backoff WHERE id=:id`. -/
def markFailed (now : Int) (eid : Nat) (db : List OutboxRow) : List OutboxRow :=
  db.map (fun r => if r.id = eid then failUpd now r else r)

/-- Body of the for loop (lines 57-88) for one claimed row: attempt the queue
send (`sendOk` is the outcome oracle, keyed by row id) and apply the matching
UPDATE. A failed send never aborts the loop. -/
def relayStep (sendOk : Nat → Bool) (now : Int) (db : List OutboxRow) (row : OutboxRow) :
    List OutboxRow :=
  if sendOk row.id then markPublished now row.id db else markFailed now row.id db

/-- The for loop over all claimed rows, threading the buffered updates. -/
def processRows (sendOk : Nat → Bool) (now : Int) (rows : List OutboxRow)
    (db : List OutboxRow) : List OutboxRow :=
  rows.foldl (relayStep sendOk now) db

/-- One poll cycle (lines 36-97): claim rows, process each, then commit; a
failed commit rolls the whole batch back, discarding every update. -/
def pollCycle (sendOk : Nat → Bool) (now : Int) (locked : List Nat) (commitOk : Bool)
    (db : List OutboxRow) : List OutboxRow :=
  let rows := pollSelect db locked now
  let db2 := processRows sendOk now rows db
  if commitOk then db2 else db

/-- Cumulative per-row effect of the claimed ids on a single row, in claim
order; each UPDATE targets rows whose id matches and leaves others alone. -/
def rowUpd (sendOk : Nat → Bool) (now : Int) (eid : Nat) (r : OutboxRow) : OutboxRow :=
  if r.id = eid then (if sendOk eid then pubUpd now r else failUpd now r) else r

/-- Fold of `rowUpd` over a list of claimed ids. -/
def applyUpds (sendOk : Nat → Bool) (now : Int) (eids : List Nat) (r : OutboxRow) : OutboxRow :=
  eids.foldl (fun acc eid => rowUpd sendOk now eid acc) r

/-- `k` relay instances whose poll cycles overlap: each in turn runs the
SELECT while the rows claimed by the earlier, still-uncommitted cycles are
exclusively locked, so its selection sees them as locked. Returns the list of
claimed batches. -/
def runClaims (db : List OutboxRow) (now : Int) : List Nat → Nat → List (List OutboxRow)
  | _, 0 => []
  | locked, k + 1 =>
      let c := pollSelect db locked now
      c :: runClaims db now (locked ++ c.map (fun r => r.id)) k

/-!
Concrete test data: a parse table standing for `json.loads` on the specific
bodies used below, an ISO-parse table, messages, clocks and an outbox
dataset. Used to instantiate the general theorems on closed inputs.
-/

/-- Project the string out of an optional JSON string value. -/
def asStr : Option JValue → Option String
  | some (.str s) => some s
  | _ => none

/-- Project the `_meta.ingested_at` string out of an enriched document. -/
def ingestedAtOf : JValue → Option String
  | .obj fields =>
      match alookup fields "_meta" with
      | some (.obj mfields) =>
          match alookup mfields "ingested_at" with
          | some (.str s) => some s
          | _ => none
      | _ => none
  | _ => none

/-- Message attributes as the publisher sets them. -/
def exAttrs : List (String × List (String × String)) :=
  [("producer", [("DataType", "String"), ("StringValue", "publisher")])]

/-- A valid event with an event-time field. -/
def exEventValid : List (String × JValue) :=
  [("payment_id", .str "p-42"), ("amount", .num 10), ("ts", .str "2026-01-18T05:00:00Z")]

/-- A valid event that already carries a `_meta` field. -/
def exEventMeta : List (String × JValue) :=
  [("payment_id", .str "p-1"), ("_meta", .str "x")]

/-- A malformed event: no `payment_id`. -/
def exEventBad : List (String × JValue) := [("amount", .num 10)]

def exBodyValid : String :=
  "\x7b\"payment_id\":\"p-42\",\"amount\":10,\"ts\":\"2026-01-18T05:00:00Z\"\x7d"

def exBodyMeta : String := "\x7b\"payment_id\":\"p-1\",\"_meta\":\"x\"\x7d"

def exBodyBad : String := "\x7b\"amount\":10\x7d"

def exBodyNotJson : String := "not json"

/-- `json.loads` restricted to the bodies above; every other body fails to
parse. -/
def exParse : String → Option JValue := fun s =>
  if s = exBodyValid then some (.obj exEventValid)
  else if s = exBodyMeta then some (.obj exEventMeta)
  else if s = exBodyBad then some (.obj exEventBad)
  else none

/-- ISO-8601 parsing restricted to the timestamp above. -/
def exIso : String → Option String := fun s =>
  if s = "2026-01-18T05:00:00+00:00" then some "2026-01-18" else none

def exMsgValid : Msg := ⟨exBodyValid, "rcpt-1", exAttrs⟩

def exMsgMeta : Msg := ⟨exBodyMeta, "rcpt-2", exAttrs⟩

def exMsgBad : Msg := ⟨exBodyBad, "rcpt-3", exAttrs⟩

def exMsgNotJson : Msg := ⟨exBodyNotJson, "rcpt-4", exAttrs⟩

def exCtx : WorkerCtx := ⟨"raw", "quarantine", "2026-01-18", "2026-01-18T05:00:01Z", 1768712401⟩

/-- The same worker clock one second later (a simulated redelivery). -/
def exCtxLater : WorkerCtx := ⟨"raw", "quarantine", "2026-01-18", "2026-01-18T05:00:02Z", 1768712402⟩

def exEnvOk : WorkerEnv := ⟨fun _ => true⟩

def exEnriched1 : JValue :=
  .obj (setKey exEventValid "_meta" (metaVal "2026-01-18T05:00:01Z" (some "publisher")))

def exEnriched2 : JValue :=
  .obj (setKey exEventValid "_meta" (metaVal "2026-01-18T05:00:02Z" (some "publisher")))

/-- A small outbox dataset: claimable pending rows 1 and 3, a published row 2,
and a backed-off row 4 whose `available_at` is in the future. -/
def exDb : List OutboxRow :=
  [⟨1, "pl-1", "pending", 0, 0, 10, none⟩,
   ⟨2, "pl-2", "published", 2, 0, 5, some 90⟩,
   ⟨3, "pl-3", "pending", 1, 50, 20, none⟩,
   ⟨4, "pl-4", "pending", 0, 1000, 1, none⟩]

/-- Send outcome used on the concrete dataset: row 1 sends, row 3 fails. -/
def exSendOk : Nat → Bool := fun eid => eid == 1

/-!
Helper lemmas: association lists and message-processing equations.
-/

theorem alookup_setKey_self (l : List (String × JValue)) (key : String) (v : JValue) :
    alookup (setKey l key v) key = some v := by
  induction l with
  | nil => simp [setKey, alookup]
  | cons p rest ih =>
      obtain ⟨k, w⟩ := p
      by_cases hk : k = key
      · simp [setKey, hk, alookup]
      · simp [setKey, hk, alookup, ih]

theorem alookup_setKey_ne (l : List (String × JValue)) (key k : String) (v : JValue)
    (hk : k ≠ key) : alookup (setKey l key v) k = alookup l k := by
  induction l with
  | nil => simp [setKey, alookup, Ne.symm hk]
  | cons p rest ih =>
      obtain ⟨k0, w⟩ := p
      by_cases h0 : k0 = key
      · subst h0
        simp [setKey, alookup, Ne.symm hk]
      · simp only [setKey, h0, if_false, alookup]
        split
        · rfl
        · exact ih

theorem processMessage_valid (jsonParse : String → Option JValue)
    (isoUtcDate : String → Option String) (ctx : WorkerCtx) (env : WorkerEnv) (m : Msg)
    (event : List (String × JValue)) (pid : String)
    (hv : validate (jsonParse m.body) = .valid event pid) :
    processMessage jsonParse isoUtcDate ctx env m =
      (if env.putOk (rawKey ctx.rawPfx (parse_dt isoUtcDate ctx.nowDate event) pid) then
        [Action.putRaw (rawKey ctx.rawPfx (parse_dt isoUtcDate ctx.nowDate event) pid)
          (JValue.obj (setKey event "_meta" (metaVal ctx.nowIso (get_producer m.attrs)))) true,
         Action.delMsg]
      else
        [Action.putRaw (rawKey ctx.rawPfx (parse_dt isoUtcDate ctx.nowDate event) pid)
          (JValue.obj (setKey event "_meta" (metaVal ctx.nowIso (get_producer m.attrs)))) false]) := by
  unfold processMessage
  rw [hv]

theorem processMessage_invalid (jsonParse : String → Option JValue)
    (isoUtcDate : String → Option String) (ctx : WorkerCtx) (env : WorkerEnv) (m : Msg)
    (err : String) (hv : validate (jsonParse m.body) = .invalid err) :
    processMessage jsonParse isoUtcDate ctx env m =
      (if env.putOk (quarKey ctx.quarPfx ctx.nowDate ctx.unixSecs) then
        [Action.putQuar (quarKey ctx.quarPfx ctx.nowDate ctx.unixSecs)
          (quarDoc err m.body m.attrs ctx.nowIso) true, Action.delMsg]
      else
        [Action.putQuar (quarKey ctx.quarPfx ctx.nowDate ctx.unixSecs)
          (quarDoc err m.body m.attrs ctx.nowIso) false]) := by
  unfold processMessage
  rw [hv]

/-!
Helper lemmas: relay updates and the poll selection.
-/

theorem rowUpd_id (sendOk : Nat → Bool) (now : Int) (eid : Nat) (r : OutboxRow) :
    (rowUpd sendOk now eid r).id = r.id := by
  unfold rowUpd
  split
  · split <;> rfl
  · rfl

theorem rowUpd_ne (sendOk : Nat → Bool) (now : Int) (eid : Nat) (r : OutboxRow)
    (h : r.id ≠ eid) : rowUpd sendOk now eid r = r := by
  unfold rowUpd
  exact if_neg h

theorem applyUpds_nil (sendOk : Nat → Bool) (now : Int) (r : OutboxRow) :
    applyUpds sendOk now [] r = r := rfl

theorem applyUpds_cons (sendOk : Nat → Bool) (now : Int) (e : Nat) (es : List Nat)
    (r : OutboxRow) :
    applyUpds sendOk now (e :: es) r = applyUpds sendOk now es (rowUpd sendOk now e r) := rfl

theorem applyUpds_id (sendOk : Nat → Bool) (now : Int) (eids : List Nat) (r : OutboxRow) :
    (applyUpds sendOk now eids r).id = r.id := by
  induction eids generalizing r with
  | nil => rfl
  | cons e es ih => rw [applyUpds_cons, ih, rowUpd_id]

theorem applyUpds_not_mem (sendOk : Nat → Bool) (now : Int) (eids : List Nat)
    (r : OutboxRow) (h : r.id ∉ eids) : applyUpds sendOk now eids r = r := by
  induction eids with
  | nil => rfl
  | cons e es ih =>
      rw [applyUpds_cons, rowUpd_ne sendOk now e r (fun he => h (he ▸ List.mem_cons_self e es))]
      exact ih (fun he => h (List.mem_cons_of_mem e he))

theorem applyUpds_mem_nodup (sendOk : Nat → Bool) (now : Int) (eids : List Nat)
    (r : OutboxRow) (hnd : eids.Nodup) (h : r.id ∈ eids) :
    applyUpds sendOk now eids r =
      (if sendOk r.id then pubUpd now r else failUpd now r) := by
  induction eids with
  | nil => cases h
  | cons e es ih =>
      rw [applyUpds_cons]
      by_cases he : r.id = e
      · subst he
        rw [show rowUpd sendOk now r.id r = (if sendOk r.id then pubUpd now r else failUpd now r) from if_pos rfl]
        apply applyUpds_not_mem
        have hid : (if sendOk r.id then pubUpd now r else failUpd now r).id = r.id := by
          split <;> rfl
        rw [hid]
        exact (List.nodup_cons.mp hnd).1
      · rw [rowUpd_ne sendOk now e r he]
        exact ih (List.nodup_cons.mp hnd).2 ((List.mem_cons.mp h).resolve_left he)

theorem relayStep_eq_map (sendOk : Nat → Bool) (now : Int) (db : List OutboxRow)
    (row : OutboxRow) :
    relayStep sendOk now db row = db.map (rowUpd sendOk now row.id) := by
  unfold relayStep rowUpd markPublished markFailed
  cases h : sendOk row.id <;> simp [h]

theorem processRows_eq_map (sendOk : Nat → Bool) (now : Int) (rows : List OutboxRow)
    (db : List OutboxRow) :
    processRows sendOk now rows db =
      db.map (applyUpds sendOk now (rows.map (fun r => r.id))) := by
  induction rows generalizing db with
  | nil =>
      show db = db.map (applyUpds sendOk now [])
      exact (List.map_id' db).symm
  | cons row rows ih =>
      show processRows sendOk now rows (relayStep sendOk now db row) = _
      rw [ih, relayStep_eq_map, List.map_map]
      rfl

theorem pollCycle_commit (sendOk : Nat → Bool) (now : Int) (locked : List Nat)
    (db : List OutboxRow) :
    pollCycle sendOk now locked true db =
      db.map (applyUpds sendOk now ((pollSelect db locked now).map (fun r => r.id))) := by
  unfold pollCycle
  rw [if_pos rfl, processRows_eq_map]

theorem perm_insertByCreated (r : OutboxRow) (l : List OutboxRow) :
    (insertByCreated r l).Perm (r :: l) := by
  induction l with
  | nil => exact List.Perm.refl _
  | cons x xs ih =>
      unfold insertByCreated
      split
      · exact List.Perm.refl _
      · exact (ih.cons x).trans (List.Perm.swap r x xs)

theorem perm_sortByCreated (l : List OutboxRow) : (sortByCreated l).Perm l := by
  induction l with
  | nil => exact List.Perm.refl _
  | cons x xs ih => exact (perm_insertByCreated x (sortByCreated xs)).trans (ih.cons x)

theorem pollSelect_mem (db : List OutboxRow) (locked : List Nat) (now : Int)
    (r : OutboxRow) (hr : r ∈ pollSelect db locked now) :
    r ∈ db ∧ r.status = "pending" ∧ r.available_at ≤ now ∧ r.id ∉ locked := by
  unfold pollSelect at hr
  have h1 := (List.take_sublist 10 _).subset hr
  have h2 := (perm_sortByCreated _).subset h1
  have h3 := List.mem_filter.mp h2
  refine ⟨h3.1, ?_⟩
  have h4 := h3.2
  simp only [Bool.and_eq_true, beq_iff_eq, decide_eq_true_eq, Bool.not_eq_true'] at h4
  exact ⟨h4.1.1, h4.1.2, by simpa using h4.2⟩

theorem pollSelect_ids_nodup (db : List OutboxRow) (locked : List Nat) (now : Int)
    (hN : (db.map (fun r => r.id)).Nodup) :
    ((pollSelect db locked now).map (fun r => r.id)).Nodup := by
  unfold pollSelect
  exact ((List.take_sublist 10 _).map (fun r : OutboxRow => r.id)).nodup
    (((perm_sortByCreated _).map (fun r : OutboxRow => r.id)).symm.nodup
      (((List.filter_sublist db).map (fun r : OutboxRow => r.id)).nodup hN))

theorem pollCycle_nocommit (sendOk : Nat → Bool) (now : Int) (locked : List Nat)
    (db : List OutboxRow) : pollCycle sendOk now locked false db = db := rfl

theorem row_eq_of_id_eq (db : List OutboxRow) (hN : (db.map (fun r => r.id)).Nodup)
    (r r2 : OutboxRow) (hr : r ∈ db) (h2 : r2 ∈ db) (hid : r2.id = r.id) : r2 = r :=
  List.inj_on_of_nodup_map hN h2 hr hid

theorem pollSelect_id_mem_pending (db : List OutboxRow) (locked : List Nat) (now : Int)
    (x : Nat) (hmem : x ∈ (pollSelect db locked now).map (fun r => r.id)) :
    ∃ rs ∈ db, rs.id = x ∧ rs.status = "pending" := by
  obtain ⟨rs, hrs, hid⟩ := List.mem_map.mp hmem
  have h := pollSelect_mem db locked now rs hrs
  exact ⟨rs, h.1, hid, h.2.1⟩

theorem claimed_row_result (sendOk : Nat → Bool) (now : Int) (locked : List Nat)
    (db : List OutboxRow) (r : OutboxRow) (hN : (db.map (fun x => x.id)).Nodup)
    (hr : r ∈ pollSelect db locked now) :
    (if sendOk r.id then pubUpd now r else failUpd now r) ∈ pollCycle sendOk now locked true db
    ∧ ∀ r2 ∈ pollCycle sendOk now locked true db, r2.id = r.id →
        r2 = (if sendOk r.id then pubUpd now r else failUpd now r) := by
  have hdb := (pollSelect_mem db locked now r hr).1
  have hnd := pollSelect_ids_nodup db locked now hN
  have hidmem : r.id ∈ (pollSelect db locked now).map (fun x => x.id) :=
    List.mem_map.mpr ⟨r, hr, rfl⟩
  have happ := applyUpds_mem_nodup sendOk now _ r hnd hidmem
  rw [pollCycle_commit]
  constructor
  · exact List.mem_map.mpr ⟨r, hdb, happ⟩
  · intro r2 h2 hid
    obtain ⟨r0, hr0, hr0eq⟩ := List.mem_map.mp h2
    rw [← hr0eq] at hid
    rw [applyUpds_id] at hid
    have hr0r : r0 = r := row_eq_of_id_eq db hN r r0 hdb hr0 hid
    rw [← hr0eq, hr0r, happ]

theorem runClaims_zero (db : List OutboxRow) (now : Int) (locked : List Nat) :
    runClaims db now locked 0 = [] := rfl

theorem runClaims_succ (db : List OutboxRow) (now : Int) (locked : List Nat) (k : Nat) :
    runClaims db now locked (k + 1) =
      pollSelect db locked now ::
        runClaims db now (locked ++ (pollSelect db locked now).map (fun r => r.id)) k := rfl

theorem runClaims_avoid (db : List OutboxRow) (now : Int) (k : Nat) :
    ∀ (locked : List Nat), ∀ c ∈ runClaims db now locked k, ∀ r ∈ c, r.id ∉ locked := by
  induction k with
  | zero =>
      intro locked c hc
      rw [runClaims_zero] at hc
      cases hc
  | succ k ih =>
      intro locked c hc r hr
      rw [runClaims_succ] at hc
      rcases List.mem_cons.mp hc with h | h
      · subst h
        exact (pollSelect_mem db locked now r hr).2.2.2
      · intro hmem
        exact (ih _ c h r hr) (List.mem_append.mpr (Or.inl hmem))

theorem runClaims_pairwise (db : List OutboxRow) (now : Int) (k : Nat) :
    ∀ (locked : List Nat),
      (runClaims db now locked k).Pairwise
        (fun c1 c2 => ∀ r ∈ c1, ∀ r2 ∈ c2, r.id ≠ r2.id) := by
  induction k with
  | zero =>
      intro locked
      rw [runClaims_zero]
      exact List.Pairwise.nil
  | succ k ih =>
      intro locked
      rw [runClaims_succ]
      refine List.Pairwise.cons ?_ (ih _)
      intro c2 hc2 r hr r2 hr2 heq
      exact (runClaims_avoid db now k _ c2 hc2 r2 hr2)
        (List.mem_append.mpr (Or.inr (List.mem_map.mpr ⟨r, hr, heq⟩)))

/-!
Claims about the Ingestion Worker.
-/

/-- C1: the worker deletes (acknowledges) a message if and only if a durable
write succeeded for it — the raw-object write when the message passes
validation, the quarantine write when it fails validation; after a failed
quarantine write, a transient infrastructure error on a put, or any other
put failure, the message is left in place undeleted. -/
theorem worker_ack_iff_durable_write (jsonParse : String → Option JValue)
    (isoUtcDate : String → Option String) (ctx : WorkerCtx) (env : WorkerEnv) (m : Msg) :
    Action.delMsg ∈ processMessage jsonParse isoUtcDate ctx env m ↔
      ((∃ k v, Action.putRaw k v true ∈ processMessage jsonParse isoUtcDate ctx env m)
        ∨ (∃ k v, Action.putQuar k v true ∈ processMessage jsonParse isoUtcDate ctx env m)) := by
  cases hval : validate (jsonParse m.body) with
  | valid event pid =>
      rw [processMessage_valid jsonParse isoUtcDate ctx env m event pid hval]
      split <;> simp
  | invalid err =>
      rw [processMessage_invalid jsonParse isoUtcDate ctx env m err hval]
      split <;> simp

/-- C4: a message whose body is not a JSON object or lacks a non-empty string
payment_id results (when the quarantine put itself succeeds) in exactly one
quarantine write and exactly one acknowledgment, and no raw object is ever
written for it. -/
theorem worker_quarantine_isolation (jsonParse : String → Option JValue)
    (isoUtcDate : String → Option String) (ctx : WorkerCtx) (env : WorkerEnv) (m : Msg)
    (err : String) (hv : validate (jsonParse m.body) = .invalid err)
    (hq : env.putOk (quarKey ctx.quarPfx ctx.nowDate ctx.unixSecs) = true) :
    ((processMessage jsonParse isoUtcDate ctx env m).countP
        (fun a => match a with | .putQuar _ _ true => true | _ => false) = 1)
    ∧ ((processMessage jsonParse isoUtcDate ctx env m).countP
        (fun a => match a with | .delMsg => true | _ => false) = 1)
    ∧ (∀ k v ok, Action.putRaw k v ok ∉ processMessage jsonParse isoUtcDate ctx env m) := by
  rw [processMessage_invalid jsonParse isoUtcDate ctx env m err hv, if_pos hq]
  refine ⟨rfl, rfl, ?_⟩
  intro k v ok h
  rcases List.mem_cons.mp h with h | h
  · exact Action.noConfusion h
  · rcases List.mem_cons.mp h with h | h
    · exact Action.noConfusion h
    · cases h

/-- C4 witness: the malformed body missing payment_id, with a healthy
quarantine sink. -/
theorem worker_quarantine_isolation_witness :
    (validate (exParse exMsgBad.body) = .invalid "missing/invalid payment_id"
      ∧ exEnvOk.putOk (quarKey exCtx.quarPfx exCtx.nowDate exCtx.unixSecs) = true)
    ∧ (((processMessage exParse exIso exCtx exEnvOk exMsgBad).countP
          (fun a => match a with | .putQuar _ _ true => true | _ => false) = 1)
        ∧ ((processMessage exParse exIso exCtx exEnvOk exMsgBad).countP
            (fun a => match a with | .delMsg => true | _ => false) = 1)
        ∧ (∀ k v ok, Action.putRaw k v ok ∉ processMessage exParse exIso exCtx exEnvOk exMsgBad)) :=
  ⟨⟨rfl, rfl⟩,
   worker_quarantine_isolation exParse exIso exCtx exEnvOk exMsgBad
     "missing/invalid payment_id" rfl rfl⟩

/-- C5: a valid event is written at the key
rawPfx/payments/dt=YYYY-MM-DD/payment_id=id.json, where the date is the UTC
calendar date of the event's ts field when ts is a string that parses as
ISO-8601 (a trailing Z accepted), and otherwise the worker's current
wall-clock date. -/
theorem worker_raw_key_partition (jsonParse : String → Option JValue)
    (isoUtcDate : String → Option String) (ctx : WorkerCtx) (env : WorkerEnv) (m : Msg)
    (event : List (String × JValue)) (pid : String)
    (hv : validate (jsonParse m.body) = .valid event pid) :
    (∃ v ok, Action.putRaw
        (ctx.rawPfx ++ "/payments/dt=" ++ parse_dt isoUtcDate ctx.nowDate event
          ++ "/payment_id=" ++ pid ++ ".json") v ok
        ∈ processMessage jsonParse isoUtcDate ctx env m)
    ∧ (∀ ts d, alookup event "ts" = some (JValue.str ts) → isoUtcDate (fixZ ts) = some d →
        parse_dt isoUtcDate ctx.nowDate event = d)
    ∧ (∀ ts, alookup event "ts" = some (JValue.str ts) → isoUtcDate (fixZ ts) = none →
        parse_dt isoUtcDate ctx.nowDate event = ctx.nowDate)
    ∧ ((∀ ts, alookup event "ts" ≠ some (JValue.str ts)) →
        parse_dt isoUtcDate ctx.nowDate event = ctx.nowDate) := by
  refine ⟨?_, ?_, ?_, ?_⟩
  · rw [processMessage_valid jsonParse isoUtcDate ctx env m event pid hv]
    split
    · exact ⟨_, true, List.mem_cons_self _ _⟩
    · exact ⟨_, false, List.mem_cons_self _ _⟩
  · intro ts d h1 h2
    simp [parse_dt, h1, h2]
  · intro ts h1 h2
    simp [parse_dt, h1, h2]
  · intro h
    unfold parse_dt
    cases halo : alookup event "ts" with
    | none => rfl
    | some v =>
        cases v with
        | str s => exact absurd halo (h s)
        | null => rfl
        | bool b => rfl
        | num n => rfl
        | arr elems => rfl
        | obj fields => rfl

/-- C5 witness: the valid event with ts 2026-01-18T05:00:00Z lands under
dt=2026-01-18. -/
theorem worker_raw_key_partition_witness :
    validate (exParse exMsgValid.body) = .valid exEventValid "p-42"
    ∧ ((∃ v ok, Action.putRaw
          (exCtx.rawPfx ++ "/payments/dt=" ++ parse_dt exIso exCtx.nowDate exEventValid
            ++ "/payment_id=" ++ "p-42" ++ ".json") v ok
          ∈ processMessage exParse exIso exCtx exEnvOk exMsgValid)
      ∧ (∀ ts d, alookup exEventValid "ts" = some (JValue.str ts) → exIso (fixZ ts) = some d →
          parse_dt exIso exCtx.nowDate exEventValid = d)
      ∧ (∀ ts, alookup exEventValid "ts" = some (JValue.str ts) → exIso (fixZ ts) = none →
          parse_dt exIso exCtx.nowDate exEventValid = exCtx.nowDate)
      ∧ ((∀ ts, alookup exEventValid "ts" ≠ some (JValue.str ts)) →
          parse_dt exIso exCtx.nowDate exEventValid = exCtx.nowDate)) :=
  ⟨rfl, worker_raw_key_partition exParse exIso exCtx exEnvOk exMsgValid exEventValid "p-42" rfl⟩

/-- C8 counterexample: a valid event that already carries a `_meta` field has
that original field overwritten by enrichment — the original value the string
"x", the stored value the worker's metadata object — so enrichment does not
leave every original field unaltered. -/
theorem worker_enrich_overwrites_meta :
    processMessage exParse exIso exCtx exEnvOk exMsgMeta =
      [Action.putRaw "raw/payments/dt=2026-01-18/payment_id=p-1.json"
        (JValue.obj [("payment_id", JValue.str "p-1"),
                     ("_meta", metaVal "2026-01-18T05:00:01Z" (some "publisher"))]) true,
       Action.delMsg]
    ∧ alookup exEventMeta "_meta" = some (JValue.str "x")
    ∧ asStr (alookup [("payment_id", JValue.str "p-1"),
          ("_meta", metaVal "2026-01-18T05:00:01Z" (some "publisher"))] "_meta")
        ≠ asStr (some (JValue.str "x")) :=
  ⟨rfl, rfl, by decide⟩

/-- C8 (amended): for every valid event, enrichment before the raw write adds
a `_meta` object containing `ingested_at` and `producer`, without removing or
altering any original field other than a pre-existing `_meta` field, which is
overwritten. -/
theorem worker_enrich_frame (jsonParse : String → Option JValue)
    (isoUtcDate : String → Option String) (ctx : WorkerCtx) (env : WorkerEnv) (m : Msg)
    (event : List (String × JValue)) (pid : String)
    (hv : validate (jsonParse m.body) = .valid event pid) :
    (∃ key ok, Action.putRaw key
        (JValue.obj (setKey event "_meta" (metaVal ctx.nowIso (get_producer m.attrs)))) ok
        ∈ processMessage jsonParse isoUtcDate ctx env m)
    ∧ (∀ k, k ≠ "_meta" →
        alookup (setKey event "_meta" (metaVal ctx.nowIso (get_producer m.attrs))) k
          = alookup event k)
    ∧ (∃ mfields,
        alookup (setKey event "_meta" (metaVal ctx.nowIso (get_producer m.attrs))) "_meta"
          = some (JValue.obj mfields)
        ∧ alookup mfields "ingested_at" = some (JValue.str ctx.nowIso)
        ∧ ∃ pv, alookup mfields "producer" = some pv) := by
  refine ⟨?_, ?_, ?_⟩
  · rw [processMessage_valid jsonParse isoUtcDate ctx env m event pid hv]
    split
    · exact ⟨_, true, List.mem_cons_self _ _⟩
    · exact ⟨_, false, List.mem_cons_self _ _⟩
  · intro k hk
    exact alookup_setKey_ne event "_meta" k _ hk
  · exact ⟨[("ingested_at", JValue.str ctx.nowIso),
      ("producer", match get_producer m.attrs with | some p => JValue.str p | none => JValue.null)],
      alookup_setKey_self event "_meta" _,
      by simp [alookup],
      ⟨(match get_producer m.attrs with | some p => JValue.str p | none => JValue.null),
        by simp [alookup]⟩⟩

/-- C8 witness for the amended claim: the valid event without a `_meta` field. -/
theorem worker_enrich_frame_witness :
    validate (exParse exMsgValid.body) = .valid exEventValid "p-42"
    ∧ ((∃ key ok, Action.putRaw key
          (JValue.obj (setKey exEventValid "_meta" (metaVal exCtx.nowIso (get_producer exMsgValid.attrs)))) ok
          ∈ processMessage exParse exIso exCtx exEnvOk exMsgValid)
      ∧ (∀ k, k ≠ "_meta" →
          alookup (setKey exEventValid "_meta" (metaVal exCtx.nowIso (get_producer exMsgValid.attrs))) k
            = alookup exEventValid k)
      ∧ (∃ mfields,
          alookup (setKey exEventValid "_meta" (metaVal exCtx.nowIso (get_producer exMsgValid.attrs))) "_meta"
            = some (JValue.obj mfields)
          ∧ alookup mfields "ingested_at" = some (JValue.str exCtx.nowIso)
          ∧ ∃ pv, alookup mfields "producer" = some pv)) :=
  ⟨rfl, worker_enrich_frame exParse exIso exCtx exEnvOk exMsgValid exEventValid "p-42" rfl⟩

/-- C3 counterexample: the same valid event delivered twice, one second apart,
is written at the same key both times but with different stored contents —
the `_meta.ingested_at` timestamps differ — so redelivery does not reproduce
the same stored object content. -/
theorem worker_redelivery_content_differs :
    processMessage exParse exIso exCtx exEnvOk exMsgValid =
      [Action.putRaw "raw/payments/dt=2026-01-18/payment_id=p-42.json" exEnriched1 true,
       Action.delMsg]
    ∧ processMessage exParse exIso exCtxLater exEnvOk exMsgValid =
      [Action.putRaw "raw/payments/dt=2026-01-18/payment_id=p-42.json" exEnriched2 true,
       Action.delMsg]
    ∧ exEnriched1 ≠ exEnriched2 := by
  refine ⟨rfl, rfl, fun h => ?_⟩
  have h2 := congrArg ingestedAtOf h
  rw [show ingestedAtOf exEnriched1 = some "2026-01-18T05:00:01Z" from rfl,
      show ingestedAtOf exEnriched2 = some "2026-01-18T05:00:02Z" from rfl] at h2
  exact absurd h2 (by decide)

/-- C3 (amended): delivering the same valid event twice produces writes at
the same storage key both times (given the deliveries observe the same
wall-clock date, which only matters when `ts` is unusable), whose contents
agree on every original event field; the contents are fully identical when
the two deliveries also observe the same ingestion timestamp. -/
theorem worker_redelivery_same_key_frame (jsonParse : String → Option JValue)
    (isoUtcDate : String → Option String) (ctx1 ctx2 : WorkerCtx) (env1 env2 : WorkerEnv)
    (m : Msg) (event : List (String × JValue)) (pid : String)
    (hv : validate (jsonParse m.body) = .valid event pid)
    (hpfx : ctx1.rawPfx = ctx2.rawPfx) (hdate : ctx1.nowDate = ctx2.nowDate) :
    (∃ v1 ok1, Action.putRaw (rawKey ctx1.rawPfx (parse_dt isoUtcDate ctx1.nowDate event) pid)
        v1 ok1 ∈ processMessage jsonParse isoUtcDate ctx1 env1 m)
    ∧ (∃ v2 ok2, Action.putRaw (rawKey ctx2.rawPfx (parse_dt isoUtcDate ctx2.nowDate event) pid)
        v2 ok2 ∈ processMessage jsonParse isoUtcDate ctx2 env2 m)
    ∧ rawKey ctx1.rawPfx (parse_dt isoUtcDate ctx1.nowDate event) pid
        = rawKey ctx2.rawPfx (parse_dt isoUtcDate ctx2.nowDate event) pid
    ∧ (∀ k, k ≠ "_meta" →
        alookup (setKey event "_meta" (metaVal ctx1.nowIso (get_producer m.attrs))) k
          = alookup (setKey event "_meta" (metaVal ctx2.nowIso (get_producer m.attrs))) k)
    ∧ (ctx1.nowIso = ctx2.nowIso →
        JValue.obj (setKey event "_meta" (metaVal ctx1.nowIso (get_producer m.attrs)))
          = JValue.obj (setKey event "_meta" (metaVal ctx2.nowIso (get_producer m.attrs)))) := by
  refine ⟨?_, ?_, ?_, ?_, ?_⟩
  · rw [processMessage_valid jsonParse isoUtcDate ctx1 env1 m event pid hv]
    split
    · exact ⟨_, true, List.mem_cons_self _ _⟩
    · exact ⟨_, false, List.mem_cons_self _ _⟩
  · rw [processMessage_valid jsonParse isoUtcDate ctx2 env2 m event pid hv]
    split
    · exact ⟨_, true, List.mem_cons_self _ _⟩
    · exact ⟨_, false, List.mem_cons_self _ _⟩
  · rw [hpfx, hdate]
  · intro k hk
    rw [alookup_setKey_ne event "_meta" k _ hk, alookup_setKey_ne event "_meta" k _ hk]
  · intro hiso
    rw [hiso]

/-- C3 witness for the amended claim: the same delivery context twice, giving
bit-identical stored objects. -/
theorem worker_redelivery_same_key_frame_witness :
    (validate (exParse exMsgValid.body) = .valid exEventValid "p-42"
      ∧ exCtx.rawPfx = exCtx.rawPfx ∧ exCtx.nowDate = exCtx.nowDate)
    ∧ ((∃ v1 ok1, Action.putRaw (rawKey exCtx.rawPfx (parse_dt exIso exCtx.nowDate exEventValid) "p-42")
          v1 ok1 ∈ processMessage exParse exIso exCtx exEnvOk exMsgValid)
      ∧ (∃ v2 ok2, Action.putRaw (rawKey exCtx.rawPfx (parse_dt exIso exCtx.nowDate exEventValid) "p-42")
          v2 ok2 ∈ processMessage exParse exIso exCtx exEnvOk exMsgValid)
      ∧ rawKey exCtx.rawPfx (parse_dt exIso exCtx.nowDate exEventValid) "p-42"
          = rawKey exCtx.rawPfx (parse_dt exIso exCtx.nowDate exEventValid) "p-42"
      ∧ (∀ k, k ≠ "_meta" →
          alookup (setKey exEventValid "_meta" (metaVal exCtx.nowIso (get_producer exMsgValid.attrs))) k
            = alookup (setKey exEventValid "_meta" (metaVal exCtx.nowIso (get_producer exMsgValid.attrs))) k)
      ∧ (exCtx.nowIso = exCtx.nowIso →
          JValue.obj (setKey exEventValid "_meta" (metaVal exCtx.nowIso (get_producer exMsgValid.attrs)))
            = JValue.obj (setKey exEventValid "_meta" (metaVal exCtx.nowIso (get_producer exMsgValid.attrs))))) :=
  ⟨⟨rfl, rfl, rfl⟩,
   worker_redelivery_same_key_frame exParse exIso exCtx exCtx exEnvOk exEnvOk exMsgValid
     exEventValid "p-42" rfl rfl rfl⟩

/-- C10: the quarantine key is quarPfx/dt=ingest-date/unix-seconds.json,
depending only on the worker's clock and not on the message content; two
distinct malformed messages quarantined at the same clock reading map to the
same key, and replaying both writes leaves the second document at that key. -/
theorem worker_quarantine_key_clock (jsonParse : String → Option JValue)
    (isoUtcDate : String → Option String) (ctx : WorkerCtx) (env : WorkerEnv)
    (m1 m2 : Msg) (e1 e2 : String) (store : String → Option JValue)
    (h1 : validate (jsonParse m1.body) = .invalid e1)
    (h2 : validate (jsonParse m2.body) = .invalid e2)
    (hq : env.putOk (quarKey ctx.quarPfx ctx.nowDate ctx.unixSecs) = true) :
    quarKey ctx.quarPfx ctx.nowDate ctx.unixSecs
      = ctx.quarPfx ++ "/dt=" ++ ctx.nowDate ++ "/" ++ toString ctx.unixSecs ++ ".json"
    ∧ processMessage jsonParse isoUtcDate ctx env m1 =
      [Action.putQuar (quarKey ctx.quarPfx ctx.nowDate ctx.unixSecs)
        (quarDoc e1 m1.body m1.attrs ctx.nowIso) true, Action.delMsg]
    ∧ processMessage jsonParse isoUtcDate ctx env m2 =
      [Action.putQuar (quarKey ctx.quarPfx ctx.nowDate ctx.unixSecs)
        (quarDoc e2 m2.body m2.attrs ctx.nowIso) true, Action.delMsg]
    ∧ applyTrace (applyTrace store (processMessage jsonParse isoUtcDate ctx env m1))
        (processMessage jsonParse isoUtcDate ctx env m2)
        (quarKey ctx.quarPfx ctx.nowDate ctx.unixSecs)
      = some (quarDoc e2 m2.body m2.attrs ctx.nowIso) := by
  have p1 := processMessage_invalid jsonParse isoUtcDate ctx env m1 e1 h1
  have p2 := processMessage_invalid jsonParse isoUtcDate ctx env m2 e2 h2
  rw [if_pos hq] at p1 p2
  refine ⟨rfl, p1, p2, ?_⟩
  rw [p1, p2]
  simp [applyTrace, applyAction]

/-- C10 witness: a no-payment_id body and a non-JSON body quarantined within
the same second. -/
theorem worker_quarantine_key_clock_witness :
    (validate (exParse exMsgBad.body) = .invalid "missing/invalid payment_id"
      ∧ validate (exParse exMsgNotJson.body) = .invalid "json decode error"
      ∧ exEnvOk.putOk (quarKey exCtx.quarPfx exCtx.nowDate exCtx.unixSecs) = true)
    ∧ (quarKey exCtx.quarPfx exCtx.nowDate exCtx.unixSecs
        = exCtx.quarPfx ++ "/dt=" ++ exCtx.nowDate ++ "/" ++ toString exCtx.unixSecs ++ ".json"
      ∧ processMessage exParse exIso exCtx exEnvOk exMsgBad =
        [Action.putQuar (quarKey exCtx.quarPfx exCtx.nowDate exCtx.unixSecs)
          (quarDoc "missing/invalid payment_id" exMsgBad.body exMsgBad.attrs exCtx.nowIso) true,
         Action.delMsg]
      ∧ processMessage exParse exIso exCtx exEnvOk exMsgNotJson =
        [Action.putQuar (quarKey exCtx.quarPfx exCtx.nowDate exCtx.unixSecs)
          (quarDoc "json decode error" exMsgNotJson.body exMsgNotJson.attrs exCtx.nowIso) true,
         Action.delMsg]
      ∧ applyTrace (applyTrace (fun _ => none) (processMessage exParse exIso exCtx exEnvOk exMsgBad))
          (processMessage exParse exIso exCtx exEnvOk exMsgNotJson)
          (quarKey exCtx.quarPfx exCtx.nowDate exCtx.unixSecs)
        = some (quarDoc "json decode error" exMsgNotJson.body exMsgNotJson.attrs exCtx.nowIso)) :=
  ⟨⟨rfl, rfl, rfl⟩,
   worker_quarantine_key_clock exParse exIso exCtx exEnvOk exMsgBad exMsgNotJson
     "missing/invalid payment_id" "json decode error" (fun _ => none) rfl rfl rfl⟩

/-!
Claims about the Outbox Relay.
-/

/-- C2: once an outbox row's status is published, no relay poll cycle changes
that row — the poll selects only pending rows and both updates target only
rows claimed by that poll — and every row the cycle does change was pending
and either becomes published (the success update) or stays pending with the
retry update. -/
theorem relay_published_terminal (sendOk : Nat → Bool) (now : Int) (locked : List Nat)
    (commitOk : Bool) (db : List OutboxRow)
    (hN : (db.map (fun r => r.id)).Nodup) :
    (∀ r ∈ db, r.status = "published" →
        r ∈ pollCycle sendOk now locked commitOk db
        ∧ ∀ r2 ∈ pollCycle sendOk now locked commitOk db, r2.id = r.id → r2 = r)
    ∧ (∀ r0 ∈ db, ∀ r2 ∈ pollCycle sendOk now locked commitOk db, r2.id = r0.id →
        r2 = r0 ∨ (r0.status = "pending" ∧ (r2 = pubUpd now r0 ∨ r2 = failUpd now r0))) := by
  cases commitOk with
  | false =>
      rw [pollCycle_nocommit]
      constructor
      · intro r hr hpub
        exact ⟨hr, fun r2 h2 hid => row_eq_of_id_eq db hN r r2 hr h2 hid⟩
      · intro r0 hr0 r2 h2 hid
        exact Or.inl (row_eq_of_id_eq db hN r0 r2 hr0 h2 hid)
  | true =>
      have key : ∀ r0 ∈ db, ∀ r2 ∈ pollCycle sendOk now locked true db, r2.id = r0.id →
          r2 = applyUpds sendOk now ((pollSelect db locked now).map (fun x => x.id)) r0 := by
        intro r0 hr0 r2 h2 hid
        rw [pollCycle_commit] at h2
        obtain ⟨r1, hr1, hr1eq⟩ := List.mem_map.mp h2
        rw [← hr1eq] at hid
        rw [applyUpds_id] at hid
        have h10 : r1 = r0 := row_eq_of_id_eq db hN r0 r1 hr0 hr1 hid
        rw [← hr1eq, h10]
      constructor
      · intro r hr hpub
        have hnot : r.id ∉ (pollSelect db locked now).map (fun x => x.id) := by
          intro hmem
          obtain ⟨rs, hrsdb, hrsid, hrspend⟩ := pollSelect_id_mem_pending db locked now r.id hmem
          have hrs : rs = r := row_eq_of_id_eq db hN r rs hr hrsdb hrsid
          rw [hrs, hpub] at hrspend
          exact absurd hrspend (by decide)
        have happ : applyUpds sendOk now ((pollSelect db locked now).map (fun x => x.id)) r = r :=
          applyUpds_not_mem sendOk now _ r hnot
        constructor
        · rw [pollCycle_commit]
          exact List.mem_map.mpr ⟨r, hr, happ⟩
        · intro r2 h2 hid
          rw [key r hr r2 h2 hid, happ]
      · intro r0 hr0 r2 h2 hid
        rw [key r0 hr0 r2 h2 hid]
        by_cases hmem : r0.id ∈ (pollSelect db locked now).map (fun x => x.id)
        · obtain ⟨rs, hrsdb, hrsid, hrspend⟩ := pollSelect_id_mem_pending db locked now r0.id hmem
          have hrs : rs = r0 := row_eq_of_id_eq db hN r0 rs hr0 hrsdb hrsid
          rw [hrs] at hrspend
          refine Or.inr ⟨hrspend, ?_⟩
          rw [applyUpds_mem_nodup sendOk now _ r0 (pollSelect_ids_nodup db locked now hN) hmem]
          split
          · exact Or.inl rfl
          · exact Or.inr rfl
        · rw [applyUpds_not_mem sendOk now _ r0 hmem]
          exact Or.inl rfl

/-- C2 witness: the concrete dataset with a published row 2, run through one
committing cycle. -/
theorem relay_published_terminal_witness :
    (exDb.map (fun r => r.id)).Nodup
    ∧ ((∀ r ∈ exDb, r.status = "published" →
          r ∈ pollCycle exSendOk 100 [] true exDb
          ∧ ∀ r2 ∈ pollCycle exSendOk 100 [] true exDb, r2.id = r.id → r2 = r)
      ∧ (∀ r0 ∈ exDb, ∀ r2 ∈ pollCycle exSendOk 100 [] true exDb, r2.id = r0.id →
          r2 = r0 ∨ (r0.status = "pending" ∧ (r2 = pubUpd 100 r0 ∨ r2 = failUpd 100 r0)))) :=
  ⟨by decide, relay_published_terminal exSendOk 100 [] true exDb (by decide)⟩

/-- C6: when the queue send fails for a claimed row, that row stays pending,
its attempts counter grows by exactly one, its available_at becomes
now + backoff, and every other claimed row whose send succeeds is still
published — one row's failure does not abort the batch. -/
theorem relay_send_failure_backoff (sendOk : Nat → Bool) (now : Int) (locked : List Nat)
    (db : List OutboxRow) (r : OutboxRow) (hN : (db.map (fun x => x.id)).Nodup)
    (hr : r ∈ pollSelect db locked now) (hf : sendOk r.id = false) :
    r.status = "pending"
    ∧ failUpd now r ∈ pollCycle sendOk now locked true db
    ∧ (failUpd now r).status = r.status
    ∧ (failUpd now r).attempts = r.attempts + 1
    ∧ (failUpd now r).available_at = now + BACKOFF
    ∧ (∀ r2 ∈ pollCycle sendOk now locked true db, r2.id = r.id → r2 = failUpd now r)
    ∧ (∀ r2 ∈ pollSelect db locked now, sendOk r2.id = true →
        pubUpd now r2 ∈ pollCycle sendOk now locked true db) := by
  have h := claimed_row_result sendOk now locked db r hN hr
  have hcond : ¬ (sendOk r.id = true) := by rw [hf]; exact Bool.false_ne_true
  rw [if_neg hcond] at h
  refine ⟨(pollSelect_mem db locked now r hr).2.1, h.1, rfl, rfl, rfl, h.2, ?_⟩
  intro r2 h2 hs2
  have h3 := claimed_row_result sendOk now locked db r2 hN h2
  rw [if_pos hs2] at h3
  exact h3.1

/-- C6 witness: claimed row 3 fails its send while claimed row 1 succeeds. -/
theorem relay_send_failure_backoff_witness :
    ((exDb.map (fun x => x.id)).Nodup
      ∧ (⟨3, "pl-3", "pending", 1, 50, 20, none⟩ : OutboxRow) ∈ pollSelect exDb [] 100
      ∧ exSendOk 3 = false)
    ∧ ((⟨3, "pl-3", "pending", 1, 50, 20, none⟩ : OutboxRow).status = "pending"
      ∧ failUpd 100 ⟨3, "pl-3", "pending", 1, 50, 20, none⟩ ∈ pollCycle exSendOk 100 [] true exDb
      ∧ (failUpd 100 ⟨3, "pl-3", "pending", 1, 50, 20, none⟩).status
          = (⟨3, "pl-3", "pending", 1, 50, 20, none⟩ : OutboxRow).status
      ∧ (failUpd 100 ⟨3, "pl-3", "pending", 1, 50, 20, none⟩).attempts
          = (⟨3, "pl-3", "pending", 1, 50, 20, none⟩ : OutboxRow).attempts + 1
      ∧ (failUpd 100 ⟨3, "pl-3", "pending", 1, 50, 20, none⟩).available_at = 100 + BACKOFF
      ∧ (∀ r2 ∈ pollCycle exSendOk 100 [] true exDb,
          r2.id = (⟨3, "pl-3", "pending", 1, 50, 20, none⟩ : OutboxRow).id →
          r2 = failUpd 100 ⟨3, "pl-3", "pending", 1, 50, 20, none⟩)
      ∧ (∀ r2 ∈ pollSelect exDb [] 100, exSendOk r2.id = true →
          pubUpd 100 r2 ∈ pollCycle exSendOk 100 [] true exDb)) :=
  ⟨⟨by decide, by decide, rfl⟩,
   relay_send_failure_backoff exSendOk 100 [] exDb ⟨3, "pl-3", "pending", 1, 50, 20, none⟩
     (by decide) (by decide) rfl⟩

/-- C7: when the queue send succeeds for a claimed pending row, that row's
status is set to published and its published_at is set to the transaction's
current time, all other fields unchanged. -/
theorem relay_send_success_publishes (sendOk : Nat → Bool) (now : Int) (locked : List Nat)
    (db : List OutboxRow) (r : OutboxRow) (hN : (db.map (fun x => x.id)).Nodup)
    (hr : r ∈ pollSelect db locked now) (hs : sendOk r.id = true) :
    r.status = "pending"
    ∧ pubUpd now r ∈ pollCycle sendOk now locked true db
    ∧ (pubUpd now r).status = "published"
    ∧ (pubUpd now r).published_at = some now
    ∧ (pubUpd now r).id = r.id
    ∧ (pubUpd now r).payload = r.payload
    ∧ (pubUpd now r).attempts = r.attempts
    ∧ (pubUpd now r).available_at = r.available_at
    ∧ (∀ r2 ∈ pollCycle sendOk now locked true db, r2.id = r.id → r2 = pubUpd now r) := by
  have h := claimed_row_result sendOk now locked db r hN hr
  rw [if_pos hs] at h
  exact ⟨(pollSelect_mem db locked now r hr).2.1, h.1, rfl, rfl, rfl, rfl, rfl, rfl, h.2⟩

/-- C7 witness: claimed row 1 sends successfully and becomes published with
published_at = 100. -/
theorem relay_send_success_publishes_witness :
    ((exDb.map (fun x => x.id)).Nodup
      ∧ (⟨1, "pl-1", "pending", 0, 0, 10, none⟩ : OutboxRow) ∈ pollSelect exDb [] 100
      ∧ exSendOk 1 = true)
    ∧ ((⟨1, "pl-1", "pending", 0, 0, 10, none⟩ : OutboxRow).status = "pending"
      ∧ pubUpd 100 ⟨1, "pl-1", "pending", 0, 0, 10, none⟩ ∈ pollCycle exSendOk 100 [] true exDb
      ∧ (pubUpd 100 ⟨1, "pl-1", "pending", 0, 0, 10, none⟩).status = "published"
      ∧ (pubUpd 100 ⟨1, "pl-1", "pending", 0, 0, 10, none⟩).published_at = some 100
      ∧ (pubUpd 100 ⟨1, "pl-1", "pending", 0, 0, 10, none⟩).id
          = (⟨1, "pl-1", "pending", 0, 0, 10, none⟩ : OutboxRow).id
      ∧ (pubUpd 100 ⟨1, "pl-1", "pending", 0, 0, 10, none⟩).payload
          = (⟨1, "pl-1", "pending", 0, 0, 10, none⟩ : OutboxRow).payload
      ∧ (pubUpd 100 ⟨1, "pl-1", "pending", 0, 0, 10, none⟩).attempts
          = (⟨1, "pl-1", "pending", 0, 0, 10, none⟩ : OutboxRow).attempts
      ∧ (pubUpd 100 ⟨1, "pl-1", "pending", 0, 0, 10, none⟩).available_at
          = (⟨1, "pl-1", "pending", 0, 0, 10, none⟩ : OutboxRow).available_at
      ∧ (∀ r2 ∈ pollCycle exSendOk 100 [] true exDb,
          r2.id = (⟨1, "pl-1", "pending", 0, 0, 10, none⟩ : OutboxRow).id →
          r2 = pubUpd 100 ⟨1, "pl-1", "pending", 0, 0, 10, none⟩)) :=
  ⟨⟨by decide, by decide, rfl⟩,
   relay_send_success_publishes exSendOk 100 [] exDb ⟨1, "pl-1", "pending", 0, 0, 10, none⟩
     (by decide) (by decide) rfl⟩

/-- C9: no two concurrent relay pollers claim the same row in overlapping
poll cycles — the selection of each in-flight cycle excludes every row
already exclusively locked by another cycle, so a row id appears in at most
one poller's claimed batch. -/
theorem relay_mutual_exclusion (db : List OutboxRow) (now : Int) (k i j : Nat)
    (hi : i < (runClaims db now [] k).length) (hj : j < (runClaims db now [] k).length)
    (hne : i ≠ j) (eid : Nat)
    (hmem : eid ∈ ((runClaims db now [] k).get ⟨i, hi⟩).map (fun r => r.id)) :
    eid ∉ ((runClaims db now [] k).get ⟨j, hj⟩).map (fun r => r.id) := by
  intro hmem2
  obtain ⟨r, hr, hrid⟩ := List.mem_map.mp hmem
  obtain ⟨r2, hr2, hrid2⟩ := List.mem_map.mp hmem2
  have hp := runClaims_pairwise db now k []
  rcases Nat.lt_or_ge i j with hlt | hge
  · exact (List.pairwise_iff_get.mp hp ⟨i, hi⟩ ⟨j, hj⟩ hlt r hr r2 hr2) (by rw [hrid, hrid2])
  · have hlt2 : j < i := Nat.lt_of_le_of_ne hge (Ne.symm hne)
    exact (List.pairwise_iff_get.mp hp ⟨j, hj⟩ ⟨i, hi⟩ hlt2 r2 hr2 r hr) (by rw [hrid2, hrid])

/-- C9 witness: two overlapping pollers on the concrete dataset; row 1 is
claimed by the first and therefore not by the second. -/
theorem relay_mutual_exclusion_witness :
    (0 < (runClaims exDb 100 [] 2).length
      ∧ 1 < (runClaims exDb 100 [] 2).length
      ∧ (0 : Nat) ≠ 1
      ∧ 1 ∈ ((runClaims exDb 100 [] 2).get ⟨0, by decide⟩).map (fun r => r.id))
    ∧ 1 ∉ ((runClaims exDb 100 [] 2).get ⟨1, by decide⟩).map (fun r => r.id) :=
  ⟨⟨by decide, by decide, by decide, by decide⟩,
   relay_mutual_exclusion exDb 100 2 0 1 (by decide) (by decide) (by decide) 1 (by decide)⟩

end MortgageEvent
